import Mathlib

/-!
Shallow embedding of the `pecet3/logger` Go package (files `cache.go` and
the main logger file) and verification of its specification claims.

The cache field `map[time.Time]string` is embedded as an association list
with Go map-assignment (overwrite-or-append) semantics; `time.Time` keys
are abstracted as natural numbers.  Each public logging method is embedded
as a pure function from an environment (the date and time strings produced
by `getCurrentDate` / `getCurrentTime`, the `time.Now()` key, and the
optional caller frame resolved by `runtime.Caller(1)`) and its variadic
argument list to the updated `Logger` together with a list of observable
effects (lines printed via `fmt.Println`, and the call to the package-level
`Error` printer).
-/

namespace PecetLogger

/-- A Go `interface\x7b\x7d` operand passed to a variadic logging call: either a
string operand, or a non-string operand carried together with its default
`fmt` rendering. -/
inductive GoVal where
  | str (s : String)
  | nonstr (rendering : String)
deriving DecidableEq, Repr

/-- The default rendering of an operand. -/
def GoVal.render : GoVal → String
  | .str s => s
  | .nonstr s => s

/-- Whether the operand is a string. -/
def GoVal.isStr : GoVal → Bool
  | .str _ => true
  | .nonstr _ => false

/-- Go `fmt.Sprint`: operands are formatted in their default formats and
concatenated; a space is added between two adjacent operands exactly when
neither is a string. -/
def sprint : List GoVal → String
  | [] => ""
  | [a] => a.render
  | a :: b :: rest =>
      a.render ++ (if a.isStr || b.isStr then "" else " ") ++ sprint (b :: rest)

/-- A resolved caller frame: the function name reported by
`runtime.FuncForPC(pc).Name()` and the line reported by `runtime.Caller`. -/
structure Frame where
  name : String
  line : Int
deriving DecidableEq, Repr

/-- The composite `pc, _, line, _ := runtime.Caller(1); fn :=
runtime.FuncForPC(pc); fName := fn.Name()` used by the context-capturing
methods.  When the runtime cannot resolve the frame, `runtime.Caller`
returns `pc = 0`, `line = 0` and `ok = false`; `runtime.FuncForPC(0)` is
`nil`, and `(*runtime.Func).Name()` on a `nil` receiver returns `""`. -/
def captureCaller : Option Frame → String × Int
  | none => ("", 0)
  | some f => (f.name, f.line)

/-- Embeds `Config` from the main logger file: `IsDebugMode bool`. -/
structure Config where
  isDebugMode : Bool
deriving DecidableEq, Repr

/-- The `Logger` struct: the cache `map[time.Time]string` (keys abstracted
as `Nat`) and the `*Config` pointer (possibly `nil`).  The mutex `cMu`
serialises cache writes and has no further observable content. -/
structure Logger where
  cache : List (Nat × String)
  c : Option Config
deriving DecidableEq, Repr

/-- Embeds `New(c *Config) *Logger`: fresh empty cache, stored config. -/
def New (c : Option Config) : Logger :=
  { cache := [], c := c }

/-- Go map assignment `m[k] = v`: overwrite the entry at `k` when present,
otherwise add a new one. -/
def mapAssign (m : List (Nat × String)) (k : Nat) (v : String) :
    List (Nat × String) :=
  if m.any (fun p => p.1 = k) then
    m.map (fun p => if p.1 = k then (k, v) else p)
  else
    m ++ [(k, v)]

/-- Go map lookup `m[k]` (with its ok-flag folded into `Option`). -/
def mapLookup : List (Nat × String) → Nat → Option String
  | [], _ => none
  | p :: m, k => if p.1 = k then some p.2 else mapLookup m k

/-- Embeds `(*Logger).addCache` from `cache.go`: take the lock and assign
`l.cache[t] = content`. -/
def addCache (l : Logger) (t : Nat) (content : String) : Logger :=
  { l with cache := mapAssign l.cache t content }

/-- An observable side effect of a logging call. -/
inductive Effect where
  | printLine (s : String)
  | pkgError (msg : String)
deriving DecidableEq, Repr

/-- Modelled from the spec: the styling helpers `formatText` and
`formatTextExt` and the style constants (`bold`, `dim`, `italic`,
`underline`, `brightGreen`, `orange`, `brightBlue`, `brightYellow`,
`magenta`) live in a styling file of the repository that is not under
`src/`.  Per the spec they only decorate the given text with color/weight
style markers around it, leaving the text itself verbatim; they are
modelled as ANSI escape wrapping. -/
def esc (code : String) : String := "\x1b[" ++ code ++ "m"

/-- The trailing style-reset marker. -/
def escReset : String := esc "0"

/-- Modelled from the spec: wrap `s` in one style marker. -/
def formatText (code : String) (s : String) : String :=
  esc code ++ s ++ escReset

/-- Modelled from the spec: wrap `s` in two style markers. -/
def formatTextExt (c1 c2 : String) (s : String) : String :=
  esc c1 ++ esc c2 ++ s ++ escReset

def bold : String := "1"
def dim : String := "2"
def italic : String := "3"
def underline : String := "4"
def brightGreen : String := "92"
def orange : String := "38;5;208"
def brightBlue : String := "94"
def brightYellow : String := "93"
def magenta : String := "35"

/-- The environment a single logging call observes: the strings returned by
`getCurrentDate()` and `getCurrentTime()`, the `time.Now()` instant used as
the cache key, and the caller frame resolved by `runtime.Caller(1)`. -/
structure Env where
  date : String
  time : String
  now : Nat
  caller : Option Frame
deriving DecidableEq, Repr

/-- The `contentRaw` string of `(*Logger).Error`:
`fmt.Sprintf("[%s] %s %s (%s:%s)", " ERROR", date, currentTime, fName,
strconv.Itoa(line))`. -/
def errorContent (env : Env) : String :=
  "[" ++ " ERROR" ++ "] " ++ env.date ++ " " ++ env.time ++ " (" ++
    (captureCaller env.caller).1 ++ ":" ++ toString (captureCaller env.caller).2 ++ ")"

/-- Embeds `(*Logger).Error`: capture the caller, build the plain `contentRaw`,
store it via `addCache(time.Now(), contentRaw)`, and forward the
concatenated message to the package-level `Error` printer. -/
def Logger.Error (l : Logger) (env : Env) (args : List GoVal) :
    Logger × List Effect :=
  (addCache l env.now (errorContent env), [Effect.pkgError (sprint args)])

/-- The `content` string of `(*Logger).Info`. -/
def infoContent (env : Env) (args : List GoVal) : String :=
  "[" ++ formatTextExt bold brightGreen " INFO " ++ "] " ++
    formatTextExt dim italic env.date ++ " " ++ formatText underline env.time ++
    " " ++ formatText bold (sprint args)

/-- Embeds `(*Logger).Info`: styled line, printed; no caller capture, no cache. -/
def Logger.Info (l : Logger) (env : Env) (args : List GoVal) :
    Logger × List Effect :=
  (l, [Effect.printLine (infoContent env args)])

/-- The header `content` string of `(*Logger).InfoC`. -/
def infoCContent (env : Env) : String :=
  "[" ++ formatTextExt bold brightGreen " INFO " ++ "] " ++
    formatTextExt dim italic env.date ++ " " ++ formatText underline env.time ++
    " (" ++ formatText brightBlue (captureCaller env.caller).1 ++ ":" ++
    formatText bold (toString (captureCaller env.caller).2) ++ ")"

/-- The `"↳"` detail line printed by the context variants when the argument
list is non-empty: `fmt.Println("↳", formatTextExt(bold, brightYellow, msg))`. -/
def detailLine (args : List GoVal) : String :=
  "↳" ++ " " ++ formatTextExt bold brightYellow (sprint args)

/-- Embeds `(*Logger).InfoC`: capture the caller, print the styled header, then
print the `"↳"` detail line when `len(args) > 0`. -/
def Logger.InfoC (l : Logger) (env : Env) (args : List GoVal) :
    Logger × List Effect :=
  (l, [Effect.printLine (infoCContent env)] ++
      (if args.length > 0 then [Effect.printLine (detailLine args)] else []))

/-- The `content` string of `(*Logger).Warn`. -/
def warnContent (env : Env) (args : List GoVal) : String :=
  "[" ++ formatTextExt bold orange " WARN " ++ "] " ++
    formatTextExt dim italic env.date ++ " " ++ formatText underline env.time ++
    " " ++ formatText bold (sprint args)

/-- Embeds `(*Logger).Warn`: styled line, printed; no caller capture, no cache. -/
def Logger.Warn (l : Logger) (env : Env) (args : List GoVal) :
    Logger × List Effect :=
  (l, [Effect.printLine (warnContent env args)])

/-- The header `content` string of `(*Logger).WarnC`. -/
def warnCContent (env : Env) : String :=
  "[" ++ formatTextExt bold orange " WARN " ++ "] " ++
    formatTextExt dim italic env.date ++ " " ++ formatText underline env.time ++
    " (" ++ formatText brightBlue (captureCaller env.caller).1 ++ ":" ++
    formatText bold (toString (captureCaller env.caller).2) ++ ")"

/-- Embeds `(*Logger).WarnC`: capture the caller, print the styled header, then
print the `"↳"` detail line when `len(args) > 0`. -/
def Logger.WarnC (l : Logger) (env : Env) (args : List GoVal) :
    Logger × List Effect :=
  (l, [Effect.printLine (warnCContent env)] ++
      (if args.length > 0 then [Effect.printLine (detailLine args)] else []))

/-- The header `content` string of `(*Logger).Debug` (tag `" DBUG "`). -/
def debugContent (env : Env) : String :=
  "[" ++ formatTextExt bold magenta " DBUG " ++ "] " ++
    formatTextExt dim italic env.date ++ " " ++ formatText underline env.time ++
    " (" ++ formatText brightBlue (captureCaller env.caller).1 ++ ":" ++
    formatText bold (toString (captureCaller env.caller).2) ++ ")"

/-- Embeds `(*Logger).Debug`: capture the caller, print the styled header, then
print the `"↳"` detail line when `len(args) > 0`. -/
def Logger.Debug (l : Logger) (env : Env) (args : List GoVal) :
    Logger × List Effect :=
  (l, [Effect.printLine (debugContent env)] ++
      (if args.length > 0 then [Effect.printLine (detailLine args)] else []))

/-- Run a sequence of `addCache` calls against a logger. -/
def runAdds (l : Logger) (ws : List (Nat × String)) : Logger :=
  ws.foldl (fun acc w => addCache acc w.1 w.2) l

/-- The content of the last write to key `k` in the write sequence `ws`
(the formalisation of the spec phrase "the last write for that key"). -/
def lastWrite : List (Nat × String) → Nat → Option String
  | [], _ => none
  | w :: ws, k =>
      match lastWrite ws k with
      | some v => some v
      | none => if w.1 = k then some w.2 else none

/-! ## Map lemmas for the Go-map embedding -/

/-- Assigning under a key absent from the head pair commutes with `cons`. -/
lemma mapAssign_cons_ne (a : Nat × String) (t : List (Nat × String)) (k : Nat)
    (v : String) (h : a.1 ≠ k) :
    mapAssign (a :: t) k v = a :: mapAssign t k v := by
  by_cases ht : t.any (fun p => p.1 = k)
  · simp [mapAssign, List.any_cons, h, ht]
  · simp [mapAssign, List.any_cons, h, ht]

/-- Replacing the entry at `k` does not change lookups at other keys. -/
lemma mapLookup_replace_ne (t : List (Nat × String)) (k : Nat) (v : String)
    (k' : Nat) (h : k' ≠ k) :
    mapLookup (t.map (fun p => if p.1 = k then (k, v) else p)) k' =
      mapLookup t k' := by
  induction t with
  | nil => rfl
  | cons a t ih =>
    by_cases ha : a.1 = k
    · have hk : k ≠ k' := fun hkk => h hkk.symm
      simp [mapLookup, ha, hk, ha ▸ hk, ih]
    · by_cases ha' : a.1 = k'
      · simp [mapLookup, ha, ha', h]
      · simp [mapLookup, ha, ha', ih]

/-- Lookup after a Go map assignment: the assigned key reads the new value,
every other key reads as before. -/
lemma mapLookup_mapAssign (m : List (Nat × String)) (k : Nat) (v : String)
    (k' : Nat) :
    mapLookup (mapAssign m k v) k' =
      if k' = k then some v else mapLookup m k' := by
  induction m with
  | nil =>
    by_cases hk : k' = k
    · simp [mapAssign, mapLookup, hk]
    · have : k ≠ k' := fun h => hk h.symm
      simp [mapAssign, mapLookup, hk, this]
  | cons a t ih =>
    by_cases ha : a.1 = k
    · have hany : (a :: t).any (fun p => p.1 = k) = true := by
        simp [List.any_cons, ha]
      by_cases hk : k' = k
      · simp [mapAssign, hany, mapLookup, ha, hk]
      · have hkk : k ≠ k' := fun h => hk h.symm
        have hak : a.1 ≠ k' := ha ▸ hkk
        simp [mapAssign, hany, mapLookup, ha, hk, hkk, hak]
        have := mapLookup_replace_ne t k v k' hk
        simpa [mapAssign] using this
    · rw [mapAssign_cons_ne a t k v ha]
      by_cases ha' : a.1 = k'
      · have hk : k' ≠ k := fun h => ha (ha' ▸ h ▸ rfl)
        simp [mapLookup, ha', hk]
      · simp [mapLookup, ha', ih]

/-- Keys of the cache stay pairwise distinct across a Go map assignment. -/
lemma nodup_keys_mapAssign (m : List (Nat × String)) (k : Nat) (v : String)
    (h : (m.map Prod.fst).Nodup) :
    ((mapAssign m k v).map Prod.fst).Nodup := by
  by_cases hany : m.any (fun p => p.1 = k)
  · have hkeys : ((m.map (fun p => if p.1 = k then (k, v) else p)).map Prod.fst)
        = m.map Prod.fst := by
      rw [List.map_map]
      apply List.map_congr_left
      intro p _
      by_cases hp : p.1 = k
      · simp [hp]
      · simp [hp]
    simp only [mapAssign, hany, if_true]
    rw [hkeys]
    exact h
  · have hnot : k ∉ m.map Prod.fst := by
      intro hmem
      rcases List.mem_map.mp hmem with ⟨p, hp, hpk⟩
      rw [List.any_eq_true] at hany
      exact hany ⟨p, hp, by simp [hpk]⟩
    simp only [mapAssign, hany]
    simp [List.nodup_append, List.disjoint_singleton, hnot, h]

/-- Lookup after a batch of `addCache` calls: the last write to the key wins,
and keys never written keep their prior binding. -/
lemma mapLookup_runAdds (ws : List (Nat × String)) :
    ∀ (l : Logger) (k : Nat),
      mapLookup (runAdds l ws).cache k =
        match lastWrite ws k with
        | some v => some v
        | none => mapLookup l.cache k := by
  induction ws with
  | nil => intro l k; rfl
  | cons w ws ih =>
    intro l k
    have hstep : runAdds l (w :: ws) = runAdds (addCache l w.1 w.2) ws := rfl
    rw [hstep, ih]
    have hlk : mapLookup (addCache l w.1 w.2).cache k =
        if k = w.1 then some w.2 else mapLookup l.cache k := by
      simpa [addCache] using mapLookup_mapAssign l.cache w.1 w.2 k
    cases hlw : lastWrite ws k with
    | some v => simp [lastWrite, hlw]
    | none =>
      by_cases hk : w.1 = k
      · subst hk
        simp [lastWrite, hlw, hlk]
      · have hk' : k ≠ w.1 := fun h => hk h.symm
        simp [lastWrite, hlw, hlk, hk, hk']

/-- Cache keys stay pairwise distinct across any batch of `addCache` calls. -/
lemma nodup_keys_runAdds (ws : List (Nat × String)) :
    ∀ (l : Logger), (l.cache.map Prod.fst).Nodup →
      ((runAdds l ws).cache.map Prod.fst).Nodup := by
  induction ws with
  | nil => intro l h; exact h
  | cons w ws ih =>
    intro l h
    exact ih (addCache l w.1 w.2) (nodup_keys_mapAssign l.cache w.1 w.2 h)

/-! ## Claim theorems -/

/-- C1: a configured instance's `Error` call inserts exactly one cache
entry — the cache becomes the old cache with a single Go-map assignment at
the `time.Now()` key — whose content is the plain uncolored
`"[ LEVEL] date time (funcName:line)"` string with level tag `" ERROR"`,
hence containing the literal tag `" ERROR"`; and the package-level `Error`
printer is invoked with the raw concatenated message. -/
theorem error_caches_one_plain_entry_and_forwards
    (l : Logger) (env : Env) (args : List GoVal) :
    ((l.Error env args).1).cache = mapAssign l.cache env.now (errorContent env) ∧
    mapLookup ((l.Error env args).1).cache env.now = some (errorContent env) ∧
    (∀ k, k ≠ env.now →
      mapLookup ((l.Error env args).1).cache k = mapLookup l.cache k) ∧
    errorContent env =
      "[ ERROR] " ++ env.date ++ " " ++ env.time ++ " (" ++
        (captureCaller env.caller).1 ++ ":" ++
        toString (captureCaller env.caller).2 ++ ")" ∧
    (∃ a b, errorContent env = a ++ " ERROR" ++ b) ∧
    (l.Error env args).2 = [Effect.pkgError (sprint args)] := by
  refine ⟨rfl, ?_, ?_, ?_, ?_, rfl⟩
  · simp [Logger.Error, addCache, mapLookup_mapAssign]
  · intro k hk
    simp [Logger.Error, addCache, mapLookup_mapAssign, hk]
  · simp [errorContent, String.ext_iff, String.data_append, List.append_assoc]
  · refine ⟨"[", "] " ++ env.date ++ " " ++ env.time ++ " (" ++
      (captureCaller env.caller).1 ++ ":" ++
      toString (captureCaller env.caller).2 ++ ")", ?_⟩
    simp [errorContent, String.ext_iff, String.data_append, List.append_assoc]

/-- Closed witness for C1: instantiated at a concrete logger, environment
and argument list, discharging the inner hypothesis. -/
theorem error_caches_one_plain_entry_and_forwards_witness :
    mapLookup (((New none).Error ⟨"d", "t", 5, none⟩ [GoVal.str "x"]).1).cache 3 =
      mapLookup (New none).cache 3 :=
  (error_caches_one_plain_entry_and_forwards (New none) ⟨"d", "t", 5, none⟩
    [GoVal.str "x"]).2.2.1 3 (by decide)

/-- C2: after any sequence of `addCache` calls starting from a fresh cache,
each key holds exactly the last write for that key (last-writer-wins), the
keys are pairwise distinct (exactly one entry per distinct timestamp), a
same-timestamp second insert overwrites the first, and inserts under
distinct keys drop no entry. -/
theorem addCache_last_writer_wins (ws : List (Nat × String)) :
    (∀ k, mapLookup (runAdds (New none) ws).cache k = lastWrite ws k) ∧
    ((runAdds (New none) ws).cache.map Prod.fst).Nodup ∧
    (∀ t v₁ v₂,
      mapLookup (runAdds (New none) [(t, v₁), (t, v₂)]).cache t = some v₂) ∧
    (∀ t₁ t₂ v₁ v₂, t₁ ≠ t₂ →
      mapLookup (runAdds (New none) [(t₁, v₁), (t₂, v₂)]).cache t₁ = some v₁ ∧
      mapLookup (runAdds (New none) [(t₁, v₁), (t₂, v₂)]).cache t₂ = some v₂) := by
  have hbase : ∀ (ws' : List (Nat × String)) (k : Nat),
      mapLookup (runAdds (New none) ws').cache k = lastWrite ws' k := by
    intro ws' k
    rw [mapLookup_runAdds]
    cases hlw : lastWrite ws' k with
    | some v => rfl
    | none => rfl
  refine ⟨hbase ws, ?_, ?_, ?_⟩
  · exact nodup_keys_runAdds ws (New none) (by simp [New])
  · intro t v₁ v₂
    rw [hbase]
    simp [lastWrite]
  · intro t₁ t₂ v₁ v₂ hne
    constructor
    · rw [hbase]
      have h21 : t₂ ≠ t₁ := fun h => hne h.symm
      simp [lastWrite, h21, hne]
    · rw [hbase]
      simp [lastWrite]

/-- Closed witness for C2: two inserts under distinct keys, both retained. -/
theorem addCache_last_writer_wins_witness :
    mapLookup (runAdds (New none) [(0, "a"), (1, "b")]).cache 0 = some "a" :=
  ((addCache_last_writer_wins [(0, "a"), (1, "b")]).2.2.2 0 1 "a" "b"
    (by decide)).1

/-- C4: the context variants always print the header line; the `"↳"` detail
line carrying the message is printed exactly when the argument list is
non-empty. -/
theorem context_variants_detail_iff_nonempty
    (l : Logger) (env : Env) (args : List GoVal) :
    (l.InfoC env args).2 =
      (if args = [] then [Effect.printLine (infoCContent env)]
       else [Effect.printLine (infoCContent env),
             Effect.printLine (detailLine args)]) ∧
    (l.WarnC env args).2 =
      (if args = [] then [Effect.printLine (warnCContent env)]
       else [Effect.printLine (warnCContent env),
             Effect.printLine (detailLine args)]) := by
  cases args with
  | nil => exact ⟨rfl, rfl⟩
  | cons a t =>
    constructor
    · simp [Logger.InfoC]
    · simp [Logger.WarnC]

/-- C6: no public logging call removes a cache entry: `Info`, `InfoC`,
`Warn`, `WarnC` and `Debug` leave the logger (hence the cache) unchanged,
only `Error` writes, its write is a single Go-map assignment, and every key
present before an `Error` call is still present after it. -/
theorem cache_never_shrinks (l : Logger) (env : Env) (args : List GoVal) :
    (l.Info env args).1 = l ∧
    (l.InfoC env args).1 = l ∧
    (l.Warn env args).1 = l ∧
    (l.WarnC env args).1 = l ∧
    (l.Debug env args).1 = l ∧
    ((l.Error env args).1).cache = mapAssign l.cache env.now (errorContent env) ∧
    (∀ k, (mapLookup l.cache k).isSome →
      (mapLookup ((l.Error env args).1).cache k).isSome) := by
  refine ⟨rfl, rfl, rfl, rfl, rfl, rfl, ?_⟩
  intro k hk
  by_cases hkn : k = env.now
  · simp [Logger.Error, addCache, mapLookup_mapAssign, hkn]
  · simpa [Logger.Error, addCache, mapLookup_mapAssign, hkn] using hk

/-- Closed witness for C6: a key cached before an `Error` call is still
present after it. -/
theorem cache_never_shrinks_witness :
    (mapLookup (((Logger.mk [(2, "old")] none).Error ⟨"d", "t", 7, none⟩ []).1).cache
      2).isSome :=
  (cache_never_shrinks (Logger.mk [(2, "old")] none) ⟨"d", "t", 7, none⟩
    []).2.2.2.2.2.2 2 (by decide)

/-- C7: the debug-mode flag is inert: with the same cache but arbitrary
(different) configs, every public logging call produces the same printed
effects and the same resulting cache. -/
theorem debug_mode_flag_inert (cache : List (Nat × String))
    (c₁ c₂ : Option Config) (env : Env) (args : List GoVal) :
    ((Logger.mk cache c₁).Error env args).1.cache =
      ((Logger.mk cache c₂).Error env args).1.cache ∧
    ((Logger.mk cache c₁).Error env args).2 =
      ((Logger.mk cache c₂).Error env args).2 ∧
    ((Logger.mk cache c₁).Info env args).1.cache =
      ((Logger.mk cache c₂).Info env args).1.cache ∧
    ((Logger.mk cache c₁).Info env args).2 =
      ((Logger.mk cache c₂).Info env args).2 ∧
    ((Logger.mk cache c₁).InfoC env args).1.cache =
      ((Logger.mk cache c₂).InfoC env args).1.cache ∧
    ((Logger.mk cache c₁).InfoC env args).2 =
      ((Logger.mk cache c₂).InfoC env args).2 ∧
    ((Logger.mk cache c₁).Warn env args).1.cache =
      ((Logger.mk cache c₂).Warn env args).1.cache ∧
    ((Logger.mk cache c₁).Warn env args).2 =
      ((Logger.mk cache c₂).Warn env args).2 ∧
    ((Logger.mk cache c₁).WarnC env args).1.cache =
      ((Logger.mk cache c₂).WarnC env args).1.cache ∧
    ((Logger.mk cache c₁).WarnC env args).2 =
      ((Logger.mk cache c₂).WarnC env args).2 ∧
    ((Logger.mk cache c₁).Debug env args).1.cache =
      ((Logger.mk cache c₂).Debug env args).1.cache ∧
    ((Logger.mk cache c₁).Debug env args).2 =
      ((Logger.mk cache c₂).Debug env args).2 :=
  ⟨rfl, rfl, rfl, rfl, rfl, rfl, rfl, rfl, rfl, rfl, rfl, rfl⟩

/-- C9: the content cached by an instance `Error` call is independent of
the message arguments: with the same caller context, date, time and
insertion instant, any two argument lists leave byte-identical cached
state. -/
theorem error_cache_independent_of_message
    (l : Logger) (env : Env) (args₁ args₂ : List GoVal) :
    ((l.Error env args₁).1) = ((l.Error env args₂).1) := rfl

/-- C10: for every config value, including `nil`, `New` returns a logger
with an initialized empty cache: no key is bound, and the very first
`Error` call inserts into that empty map, yielding a one-entry cache. -/
theorem new_returns_empty_cache (c : Option Config) (env : Env)
    (args : List GoVal) :
    (New c).cache = [] ∧
    (∀ k, mapLookup (New c).cache k = none) ∧
    ((New c).Error env args).1.cache = [(env.now, errorContent env)] := by
  refine ⟨rfl, fun k => rfl, ?_⟩
  simp [New, Logger.Error, addCache, mapAssign]

/-- C3 counterexample: `Debug` also captures and renders caller context —
its printed output changes with the calling function's name, and the
rendered header embeds that name — refuting the claim that only `InfoC`,
`WarnC` and `Error` do. -/
theorem debug_renders_caller_context :
    ((New none).Debug ⟨"d", "t", 0, some ⟨"main.f", 7⟩⟩ []).2 ≠
      ((New none).Debug ⟨"d", "t", 0, some ⟨"main.g", 7⟩⟩ []).2 ∧
    debugContent ⟨"d", "t", 0, some ⟨"main.f", 7⟩⟩ =
      "[\x1b[1m\x1b[35m DBUG \x1b[0m] \x1b[2m\x1b[3md\x1b[0m \x1b[4mt\x1b[0m (\x1b[94m"
        ++ "main.f" ++ "\x1b[0m:\x1b[1m7\x1b[0m)" := by
  constructor
  · decide
  · decide

/-- C3 amended: caller context is captured and rendered by the context
variants `InfoC` and `WarnC`, by `Debug`, and by `Error`; `Info` and `Warn`
neither capture nor render it (their whole behavior is unchanged under any
change of the caller frame). -/
theorem caller_context_capture_amended
    (l : Logger) (e e' : Env) (args : List GoVal)
    (hd : e.date = e'.date) (ht : e.time = e'.time) (hn : e.now = e'.now) :
    l.Info e args = l.Info e' args ∧
    l.Warn e args = l.Warn e' args ∧
    (∃ a b, infoCContent e = a ++ (captureCaller e.caller).1 ++ b) ∧
    (∃ a b, warnCContent e = a ++ (captureCaller e.caller).1 ++ b) ∧
    (∃ a b, debugContent e = a ++ (captureCaller e.caller).1 ++ b) ∧
    (∃ a b, errorContent e = a ++ (captureCaller e.caller).1 ++ b) := by
  refine ⟨?_, ?_, ?_, ?_, ?_, ?_⟩
  · simp [Logger.Info, infoContent, hd, ht]
  · simp [Logger.Warn, warnContent, hd, ht]
  · refine ⟨"[" ++ formatTextExt bold brightGreen " INFO " ++ "] " ++
      formatTextExt dim italic e.date ++ " " ++ formatText underline e.time ++
      " (" ++ esc brightBlue,
      escReset ++ ":" ++ formatText bold (toString (captureCaller e.caller).2)
        ++ ")", ?_⟩
    simp [infoCContent, formatText, formatTextExt, String.ext_iff,
      String.data_append, List.append_assoc]
  · refine ⟨"[" ++ formatTextExt bold orange " WARN " ++ "] " ++
      formatTextExt dim italic e.date ++ " " ++ formatText underline e.time ++
      " (" ++ esc brightBlue,
      escReset ++ ":" ++ formatText bold (toString (captureCaller e.caller).2)
        ++ ")", ?_⟩
    simp [warnCContent, formatText, formatTextExt, String.ext_iff,
      String.data_append, List.append_assoc]
  · refine ⟨"[" ++ formatTextExt bold magenta " DBUG " ++ "] " ++
      formatTextExt dim italic e.date ++ " " ++ formatText underline e.time ++
      " (" ++ esc brightBlue,
      escReset ++ ":" ++ formatText bold (toString (captureCaller e.caller).2)
        ++ ")", ?_⟩
    simp [debugContent, formatText, formatTextExt, String.ext_iff,
      String.data_append, List.append_assoc]
  · refine ⟨"[ ERROR] " ++ e.date ++ " " ++ e.time ++ " (",
      ":" ++ toString (captureCaller e.caller).2 ++ ")", ?_⟩
    simp [errorContent, String.ext_iff, String.data_append, List.append_assoc]

/-- Closed witness for the amended C3: `Info` is unchanged when only the
caller frame differs. -/
theorem caller_context_capture_amended_witness :
    (New none).Info ⟨"d", "t", 0, some ⟨"f", 1⟩⟩ [] =
      (New none).Info ⟨"d", "t", 0, none⟩ [] :=
  (caller_context_capture_amended (New none) ⟨"d", "t", 0, some ⟨"f", 1⟩⟩
    ⟨"d", "t", 0, none⟩ [] rfl rfl rfl).1

/-- C5 counterexample: with an unresolved caller frame the function-name
field is the empty string but the line field renders as `"0"`, not as an
empty string — `Error`'s cached content reads `"(:0)"`, not `"(:)"`. -/
theorem caller_fallback_line_renders_zero :
    errorContent ⟨"d", "t", 0, none⟩ = "[ ERROR] d t (:0)" ∧
    errorContent ⟨"d", "t", 0, none⟩ ≠ "[ ERROR] d t (:)" := by
  constructor
  · decide
  · decide

/-- C5 amended: formatting never fails — when the runtime cannot resolve
the calling frame, every logging call substitutes the empty string for the
function name and `0` (rendered `"0"`) for the line number, and completes
(all embedded calls are total functions). -/
theorem caller_fallback_amended (env : Env) (h : env.caller = none) :
    captureCaller env.caller = ("", 0) ∧
    errorContent env = "[ ERROR] " ++ env.date ++ " " ++ env.time ++ " (:0)" ∧
    infoCContent env =
      "[" ++ formatTextExt bold brightGreen " INFO " ++ "] " ++
        formatTextExt dim italic env.date ++ " " ++
        formatText underline env.time ++ " (" ++ formatText brightBlue "" ++
        ":" ++ formatText bold "0" ++ ")" ∧
    warnCContent env =
      "[" ++ formatTextExt bold orange " WARN " ++ "] " ++
        formatTextExt dim italic env.date ++ " " ++
        formatText underline env.time ++ " (" ++ formatText brightBlue "" ++
        ":" ++ formatText bold "0" ++ ")" ∧
    debugContent env =
      "[" ++ formatTextExt bold magenta " DBUG " ++ "] " ++
        formatTextExt dim italic env.date ++ " " ++
        formatText underline env.time ++ " (" ++ formatText brightBlue "" ++
        ":" ++ formatText bold "0" ++ ")" := by
  have h0 : toString (0 : Int) = "0" := rfl
  refine ⟨by simp [captureCaller, h], ?_, ?_, ?_, ?_⟩
  · simp [errorContent, captureCaller, h, h0, String.ext_iff,
      String.data_append, List.append_assoc]
  · simp [infoCContent, captureCaller, h, h0]
  · simp [warnCContent, captureCaller, h, h0]
  · simp [debugContent, captureCaller, h, h0]

/-- Closed witness for the amended C5: the unresolved-caller `Error`
content at a concrete environment. -/
theorem caller_fallback_amended_witness :
    errorContent ⟨"d", "t", 0, none⟩ =
      "[ ERROR] " ++ "d" ++ " " ++ "t" ++ " (:0)" :=
  (caller_fallback_amended ⟨"d", "t", 0, none⟩ rfl).2.1

/-- C8: variadic arguments are concatenated with Go `fmt.Sprint`
stringification — no separator between string-adjacent operands, a single
space only between two adjacent non-string operands — so
`Info("build", " ", "ok")` has message body `"build ok"`, and the
formatted `Info` output contains the level tag text `" INFO "` and
`"build ok"` verbatim, styling markers aside. -/
theorem sprint_concatenation_info_example :
    (∀ s₁ s₂ : String, sprint [GoVal.str s₁, GoVal.str s₂] = s₁ ++ s₂) ∧
    (∀ x y : String, sprint [GoVal.nonstr x, GoVal.nonstr y] = x ++ " " ++ y) ∧
    (∀ x s : String, sprint [GoVal.nonstr x, GoVal.str s] = x ++ s) ∧
    (∀ s x : String, sprint [GoVal.str s, GoVal.nonstr x] = s ++ x) ∧
    sprint [GoVal.str "build", GoVal.str " ", GoVal.str "ok"] = "build ok" ∧
    (∀ env : Env, ∃ a b,
      infoContent env [GoVal.str "build", GoVal.str " ", GoVal.str "ok"] =
        a ++ " INFO " ++ b) ∧
    (∀ env : Env, ∃ a b,
      infoContent env [GoVal.str "build", GoVal.str " ", GoVal.str "ok"] =
        a ++ "build ok" ++ b) := by
  refine ⟨?_, ?_, ?_, ?_, by decide, ?_, ?_⟩
  · intro s₁ s₂
    simp [sprint, GoVal.render, GoVal.isStr, String.ext_iff, String.data_append]
  · intro x y
    simp [sprint, GoVal.render, GoVal.isStr, String.ext_iff, String.data_append,
      List.append_assoc]
  · intro x s
    simp [sprint, GoVal.render, GoVal.isStr, String.ext_iff, String.data_append]
  · intro s x
    simp [sprint, GoVal.render, GoVal.isStr, String.ext_iff, String.data_append]
  · intro env
    refine ⟨"[" ++ esc bold ++ esc brightGreen,
      escReset ++ "] " ++ formatTextExt dim italic env.date ++ " " ++
        formatText underline env.time ++ " " ++ formatText bold "build ok", ?_⟩
    simp [infoContent, formatText, formatTextExt, sprint, GoVal.render,
      GoVal.isStr, String.ext_iff, String.data_append, List.append_assoc]
  · intro env
    refine ⟨"[" ++ formatTextExt bold brightGreen " INFO " ++ "] " ++
      formatTextExt dim italic env.date ++ " " ++ formatText underline env.time
        ++ " " ++ esc bold, escReset, ?_⟩
    simp [infoContent, formatText, formatTextExt, sprint, GoVal.render,
      GoVal.isStr, String.ext_iff, String.data_append, List.append_assoc]

end PecetLogger
